import Mathlib

/-!
Verification of the cross-chunk entity consolidation and relationship-inference
engine of the pdf2bpmn repository, shallowly embedded in Lean 4.

The embedding follows the source files:
  - src/pdf2bpmn/extractors/entity_extractor.py  (EntityExtractor.convert_to_entities)
  - src/pdf2bpmn/workflow/graph.py               (PDF2BPMNWorkflow: _create_sequence_flows,
                                                  _infer_task_process_relationships,
                                                  _deduplicate_entities, detect_ambiguities)
  - src/pdf2bpmn/graph/vector_search.py          (VectorSearch.find_similar_entity)
  - src/pdf2bpmn/config.py                       (similarity thresholds)

Python dictionaries are modelled as insertion-ordered association lists,
`str.lower()` as a character-wise `strLower`, the substring operator `in` as infix
containment on character lists, uuid minting as a threaded natural-number
counter, and float similarity scores as rationals (only their ordering
against the constant thresholds matters to the code paths modelled here).
Oracle payload fields are `Option`-valued: `none` models an absent (or
JSON-null) key, `some ""` a present empty string.
-/

namespace PDF2BPMN

/-- Model of Python dict lookup `d.get(k)` on an insertion-ordered
association list (keys are unique by construction of `dset`). -/
def dget (d : List (String × String)) (k : String) : Option String :=
  match d with
  | [] => none
  | (k1, v) :: rest => if k1 = k then some v else dget rest k

/-- Model of Python `k in d`. -/
def dmem (d : List (String × String)) (k : String) : Bool :=
  (dget d k).isSome

/-- Model of Python dict assignment `d[k] = v`: replaces the value in place
when the key exists, otherwise appends the new binding at the end. -/
def dset (d : List (String × String)) (k v : String) : List (String × String) :=
  match d with
  | [] => [(k, v)]
  | (k1, v1) :: rest => if k1 = k then (k, v) :: rest else (k1, v1) :: dset rest k v

/-- Boolean prefix test on character lists. -/
def listPre (p l : List Char) : Bool :=
  match p, l with
  | [], _ => true
  | _ :: _, [] => false
  | a :: p1, b :: l1 => a == b && listPre p1 l1

/-- Boolean infix (contiguous-sublist) test on character lists. -/
def listInf (p l : List Char) : Bool :=
  match l with
  | [] => p.isEmpty
  | _ :: t => listPre p l || listInf p t

/-- Model of the Python substring test `needle in hay` on strings
(the empty needle is contained in every string, as in Python). -/
def strIn (needle hay : String) : Bool :=
  listInf needle.toList hay.toList

/-- Model of Python `str.lower()`: character-wise ASCII lowering (defined
on the character list so that it reduces inside the kernel). -/
def strLower (s : String) : String :=
  String.mk (s.data.map Char.toLower)

/-- Whitespace test used by the model of Python `str.strip()`. -/
def isWs (c : Char) : Bool :=
  c == ' ' || c == '\t' || c == '\n' || c == '\r'

/-- Model of Python `str.strip()`: drops leading and trailing whitespace. -/
def strTrim (s : String) : String :=
  String.mk (((s.data.dropWhile isWs).reverse.dropWhile isWs).reverse)

/-- Model of Python `x or d` where `x` is an optional string field:
`None` and the empty string are both falsy. -/
def pyOr (x : Option String) (d : String) : String :=
  match x with
  | none => d
  | some s => if s = "" then d else s

/-- Model of Python truthiness of an optional string field. -/
def optTruthy (x : Option String) : Option String :=
  match x with
  | none => none
  | some s => if s = "" then none else some s

/-- Model of `generate_id()`: the source mints a fresh uuid; we mint a fresh
string from a counter, which preserves exactly the property the code relies
on (distinctness of successively minted ids). -/
def mkId (n : Nat) : String :=
  "id" ++ toString n

/-- models.entities.TaskType. -/
inductive TaskType where
  | human
  | agent
  | system
deriving Repr, DecidableEq

/-- models.entities.Process (the fields convert_to_entities populates). -/
structure Process where
  proc_id : String
  name : String
  purpose : String
  description : String
deriving Repr, DecidableEq

/-- models.entities.Task, plus the two dynamic attributes
`_next_task_name` / `_previous_task_name` that convert_to_entities attaches
to task objects (stored only when the oracle value is truthy). -/
structure Task where
  task_id : String
  process_id : String
  name : String
  task_type : TaskType
  description : String
  order : Int
  next_task_name : Option String
  previous_task_name : Option String
deriving Repr, DecidableEq

/-- models.entities.Role (the fields convert_to_entities populates). -/
structure Role where
  role_id : String
  name : String
  org_unit : String
  persona_hint : String
deriving Repr, DecidableEq

/-- An element of entities["sequence_flows"]: the dicts built by
convert_to_entities always carry these three keys. -/
structure SeqFlow where
  from_task_id : String
  to_task_id : String
  condition : String
deriving Repr, DecidableEq

/-- models.entities.AmbiguityStatus. -/
inductive AmbiguityStatus where
  | statusOpen
  | statusResolved
deriving Repr, DecidableEq

/-- models.entities.Ambiguity (the fields detect_ambiguities populates). -/
structure Ambiguity where
  amb_id : String
  entity_type : String
  entity_id : String
  question : String
  options : List String
  status : AmbiguityStatus
deriving Repr, DecidableEq

/-- Oracle candidate for a Process: a loosely-typed field bag; only the keys
convert_to_entities reads are modelled. -/
structure ProcCand where
  name : Option String
  description : Option String
deriving Repr, DecidableEq

/-- Oracle candidate for a Role. -/
structure RoleCand where
  name : Option String
  org_unit : Option String
  persona_hint : Option String
  description : Option String
deriving Repr, DecidableEq

/-- Oracle candidate for a Task.  The `order` field abstracts the Python
type dispatch on `t.get("order")`: `none` is an absent or null key,
`some (some n)` is a numeric value (or an int-parseable string) of value
`n`, and `some none` is an unparseable string or a value of any other type
(both of which the source replaces by the batch index). -/
structure TaskCand where
  name : Option String
  task_type : Option String
  description : Option String
  order : Option (Option Int)
  performer_role : Option String
  parent_process : Option String
  next_task : Option String
  previous_task : Option String
deriving Repr, DecidableEq

/-- An element of extracted.task_role_mappings. -/
structure RoleMapCand where
  task_name : Option String
  role_name : Option String
deriving Repr, DecidableEq

/-- An element of extracted.task_process_mappings. -/
structure ProcMapCand where
  task_name : Option String
  process_name : Option String
deriving Repr, DecidableEq

/-- An element of extracted.sequence_flows. -/
structure FlowCand where
  from_task : Option String
  to_task : Option String
  condition : Option String
deriving Repr, DecidableEq

/-- ExtractedEntities restricted to the lists that feed the consolidation
logic under verification (gateways, events, decisions and rules are
converted by independent loops that write only to their own output lists
and to the evidence map, so they are omitted). -/
structure ExtractedEntities where
  processes : List ProcCand
  tasks : List TaskCand
  roles : List RoleCand
  task_role_mappings : List RoleMapCand
  task_process_mappings : List ProcMapCand
  sequence_flows : List FlowCand
deriving Repr, DecidableEq

/-- The mutable state threaded through convert_to_entities: the entity
output lists, the relationship maps, the three name registries and the id
counter. -/
structure CState where
  nextId : Nat
  processes : List Process
  tasks : List Task
  roles : List Role
  task_role_map : List (String × String)
  task_process_map : List (String × String)
  sequence_flows : List SeqFlow
  process_name_to_id : List (String × String)
  role_name_to_id : List (String × String)
  task_name_to_id : List (String × String)
deriving Repr, DecidableEq

/-- Initial conversion state: convert_to_entities copies the caller's
process/role registries and starts all output collections empty. -/
def initState (startId : Nat) (existing_processes existing_roles : List (String × String)) :
    CState :=
  { nextId := startId
    processes := []
    tasks := []
    roles := []
    task_role_map := []
    task_process_map := []
    sequence_flows := []
    process_name_to_id := existing_processes
    role_name_to_id := existing_roles
    task_name_to_id := [] }

/-- entity_extractor.py lines 234-248: the candidate-Process loop.  Every
candidate mints a fresh Process object unconditionally and (re)binds
`process_name_to_id[name.lower()]` to the fresh id. -/
def convertProcesses : List ProcCand → CState → CState
  | [], s => s
  | p :: rest, s =>
    let proc_id := mkId s.nextId
    let nm := p.name.getD "Unknown Process"
    let proc : Process :=
      { proc_id := proc_id
        name := nm
        purpose := (p.description.getD "")
        description := (p.description.getD "") }
    convertProcesses rest
      { s with
        nextId := s.nextId + 1
        processes := s.processes ++ [proc]
        process_name_to_id := dset s.process_name_to_id (strLower nm) proc_id }

/-- entity_extractor.py lines 250-268: the candidate-Role loop.  A fresh
Role is minted only when the lowercased name is not yet a key of
`role_name_to_id`. -/
def convertRoles : List RoleCand → CState → CState
  | [], s => s
  | r :: rest, s =>
    let role_name := r.name.getD "Unknown Role"
    let role_key := (strLower role_name)
    if dmem s.role_name_to_id role_key then
      convertRoles rest s
    else
      let role_id := mkId s.nextId
      let role : Role :=
        { role_id := role_id
          name := role_name
          org_unit := r.org_unit.getD ""
          persona_hint := r.persona_hint.getD (r.description.getD "") }
      convertRoles rest
        { s with
          nextId := s.nextId + 1
          roles := s.roles ++ [role]
          role_name_to_id := dset s.role_name_to_id role_key role_id }

/-- entity_extractor.py lines 272-277: dispatch of the `task_type` field. -/
def parseTaskType (o : Option String) : TaskType :=
  let str := (strLower (pyOr o "human"))
  if str = "agent" then TaskType.agent
  else if str = "system" then TaskType.system
  else TaskType.human

/-- entity_extractor.py lines 270-335: the candidate-Task loop, indexed by
the enumerate counter `i`. -/
def convertTasksAux : Nat → List TaskCand → CState → CState
  | _, [], s => s
  | i, t :: rest, s =>
    let task_type := parseTaskType t.task_type
    let task_id := mkId s.nextId
    let parent_process_name := (strLower (pyOr t.parent_process ""))
    let pid0 :=
      if parent_process_name ≠ "" then
        (dget s.process_name_to_id parent_process_name).getD ""
      else ""
    let process_id :=
      if pid0 = "" then
        match s.processes with
        | [] => ""
        | p :: _ => p.proc_id
      else pid0
    let task_order : Int :=
      match t.order with
      | none => (i : Int)
      | some (some n) => n
      | some none => (i : Int)
    let task_name := t.name.getD ("Task " ++ toString (i + 1))
    let task : Task :=
      { task_id := task_id
        process_id := process_id
        name := task_name
        task_type := task_type
        description := t.description.getD ""
        order := task_order
        next_task_name := optTruthy t.next_task
        previous_task_name := optTruthy t.previous_task }
    let performer_role := (strLower (pyOr t.performer_role ""))
    let trm :=
      if performer_role ≠ "" then
        match dget s.role_name_to_id performer_role with
        | some role_id => dset s.task_role_map task_id role_id
        | none => s.task_role_map
      else s.task_role_map
    convertTasksAux (i + 1) rest
      { s with
        nextId := s.nextId + 1
        tasks := s.tasks ++ [task]
        task_name_to_id := dset s.task_name_to_id (strLower task_name) task_id
        task_process_map :=
          if process_id ≠ "" then dset s.task_process_map task_id process_id
          else s.task_process_map
        task_role_map := trm }

/-- entity_extractor.py lines 343-347: the inner task scan for one
task_role_mapping.  The loop breaks at the first task whose lowercased name
equals the candidate name or contains it as a substring, provided the role
name is a registry key; a name match with an unknown role assigns nothing
and keeps scanning (with no later effect, since the role stays unknown). -/
def assignRoleMapping (rntid trm : List (String × String)) (tn rn : String) :
    List Task → List (String × String)
  | [] => trm
  | t :: rest =>
    if ((strLower t.name) = tn ∨ strIn tn (strLower t.name)) ∧ dmem rntid rn then
      dset trm t.task_id ((dget rntid rn).getD "")
    else assignRoleMapping rntid trm tn rn rest

/-- entity_extractor.py lines 337-347: the task_role_mappings loop. -/
def applyRoleMappings (rntid : List (String × String)) :
    List RoleMapCand → List (String × String) → List Task → List (String × String)
  | [], trm, _ => trm
  | m :: rest, trm, tasks =>
    let tn := (strLower (pyOr m.task_name ""))
    let rn := (strLower (pyOr m.role_name ""))
    applyRoleMappings rntid rest (assignRoleMapping rntid trm tn rn tasks) tasks

/-- entity_extractor.py lines 354-359: the inner task scan for one
task_process_mapping.  On the first name-matching task with a known process
name, the task object's process_id is overwritten in place and the
(task_id, process_id) assignment is reported. -/
def assignProcMapping (pntid : List (String × String)) (tn pn : String) :
    List Task → List Task × Option (String × String)
  | [] => ([], none)
  | t :: rest =>
    if ((strLower t.name) = tn ∨ strIn tn (strLower t.name)) ∧ dmem pntid pn then
      let pid := (dget pntid pn).getD ""
      ({ t with process_id := pid } :: rest, some (t.task_id, pid))
    else
      let r := assignProcMapping pntid tn pn rest
      (t :: r.1, r.2)

/-- entity_extractor.py lines 349-359: the task_process_mappings loop,
threading the mutated task list and the task_process_map. -/
def applyProcMappings (pntid : List (String × String)) :
    List ProcMapCand → List Task → List (String × String) →
    List Task × List (String × String)
  | [], tasks, tpm => (tasks, tpm)
  | m :: rest, tasks, tpm =>
    let tn := (strLower (pyOr m.task_name ""))
    let pn := (strLower (pyOr m.process_name ""))
    let r := assignProcMapping pntid tn pn tasks
    match r.2 with
    | some a => applyProcMappings pntid rest r.1 (dset tpm a.1 a.2)
    | none => applyProcMappings pntid rest r.1 tpm

/-- entity_extractor.py lines 462-471: endpoint resolution for one explicit
sequence flow.  Both endpoints scan the full task list with no break, so the
LAST task whose lowercased name equals the endpoint name or contains it as a
substring wins; an empty endpoint name matches nothing. -/
def resolveFlowEndpoints (ftn ttn : String) (tasks : List Task) :
    Option String × Option String :=
  tasks.foldl
    (fun acc t =>
      let tl := (strLower t.name)
      ( if ftn ≠ "" ∧ (tl = ftn ∨ strIn ftn tl) then some t.task_id else acc.1,
        if ttn ≠ "" ∧ (tl = ttn ∨ strIn ttn tl) then some t.task_id else acc.2 ))
    (none, none)

/-- entity_extractor.py lines 456-478: the extracted.sequence_flows loop.
A flow is emitted whenever both endpoints resolved to some task id; there is
no irreflexivity or duplicate check. -/
def resolveExplicitFlows (tasks : List Task) :
    List FlowCand → List SeqFlow → List SeqFlow
  | [], flows => flows
  | f :: rest, flows =>
    let ftn := (strLower (pyOr f.from_task ""))
    let ttn := (strLower (pyOr f.to_task ""))
    let condition := f.condition.getD ""
    let ids := resolveFlowEndpoints ftn ttn tasks
    match ids.1, ids.2 with
    | some fid, some tid =>
        resolveExplicitFlows tasks rest
          (flows ++ [{ from_task_id := fid, to_task_id := tid, condition := condition }])
    | _, _ => resolveExplicitFlows tasks rest flows

/-- entity_extractor.py lines 484-491: first task whose lowercased name
equals or contains the stored next-task name (the inner loop breaks at the
first hit). -/
def findNextTarget (nn : String) : List Task → Option String
  | [] => none
  | t :: rest =>
    if (strLower t.name) = nn ∨ strIn nn (strLower t.name) then some t.task_id
    else findNextTarget nn rest

/-- entity_extractor.py lines 480-491: sequence flows synthesized from the
`_next_task_name` attribute of each task. -/
def nextTaskFlows (allTasks : List Task) :
    List Task → List SeqFlow → List SeqFlow
  | [], flows => flows
  | t :: rest, flows =>
    match t.next_task_name with
    | none => nextTaskFlows allTasks rest flows
    | some nxt =>
      match findNextTarget (strLower nxt) allTasks with
      | some tid =>
          nextTaskFlows allTasks rest
            (flows ++ [{ from_task_id := t.task_id, to_task_id := tid, condition := "" }])
      | none => nextTaskFlows allTasks rest flows

/-- graph.py line 278 and entity_extractor.py line 497: a task's grouping
key is `task.process_id or "default"`. -/
def procKey (t : Task) : String :=
  if t.process_id = "" then "default" else t.process_id

/-- Grouping keys in first-occurrence order, modelling the insertion order
of the `tasks_by_process` dict keys. -/
def groupKeys (tasks : List Task) : List String :=
  tasks.foldl (fun ks t => if procKey t ∈ ks then ks else ks ++ [procKey t]) []

/-- Stable insertion of a task into a list sorted by ascending `order`,
placing it before the first strictly greater element (so that elements of
equal order keep their original relative position, as Python's stable
`sorted` does). -/
def insertByOrder (t : Task) : List Task → List Task
  | [] => [t]
  | x :: xs => if t.order ≤ x.order then t :: x :: xs else x :: insertByOrder t xs

/-- Model of Python `sorted(proc_tasks, key=lambda t: t.order)`: a stable
sort by ascending order. -/
def sortByOrder : List Task → List Task
  | [] => []
  | t :: rest => insertByOrder t (sortByOrder rest)

/-- The `(from, to)` pair of a sequence flow. -/
def pairOf (f : SeqFlow) : String × String :=
  (f.from_task_id, f.to_task_id)

/-- entity_extractor.py lines 511-521: the chain of condition-free flows
between consecutive tasks of one sorted group, skipping any adjacent pair
already present in the pre-computed `existing_flows` set (which is NOT
updated as flows are appended). -/
def chainSkipExisting (existing : List (String × String)) : List Task → List SeqFlow
  | a :: b :: rest =>
    (if (a.task_id, b.task_id) ∈ existing then []
     else [{ from_task_id := a.task_id, to_task_id := b.task_id, condition := "" }])
      ++ chainSkipExisting existing (b :: rest)
  | _ => []

/-- entity_extractor.py lines 493-521: order-based sequence-flow synthesis
inside convert_to_entities.  Groups tasks by `procKey` in first-occurrence
order, stably sorts each group by `order`, and appends the consecutive
chain, skipping pairs already in the explicit-flow set. -/
def convertSynthFlows (tasks : List Task) (flows : List SeqFlow) : List SeqFlow :=
  let existing := flows.map pairOf
  (groupKeys tasks).foldl
    (fun acc k =>
      acc ++ chainSkipExisting existing (sortByOrder (tasks.filter (fun t => procKey t = k))))
    flows

/-- entity_extractor.py lines 197-523: EntityExtractor.convert_to_entities,
restricted to the process/role/task conversion, the relationship-map
resolution and the sequence-flow construction (gateway, event, decision and
rule conversion write only to their own output lists and the evidence map
and are independent of everything modelled here). -/
def convert_to_entities (extracted : ExtractedEntities)
    (existing_processes existing_roles : List (String × String))
    (startId : Nat) : CState :=
  let s0 := initState startId existing_processes existing_roles
  let s1 := convertProcesses extracted.processes s0
  let s2 := convertRoles extracted.roles s1
  let s3 := convertTasksAux 0 extracted.tasks s2
  let trm := applyRoleMappings s3.role_name_to_id extracted.task_role_mappings
    s3.task_role_map s3.tasks
  let tp := applyProcMappings s3.process_name_to_id extracted.task_process_mappings
    s3.tasks s3.task_process_map
  let fl1 := resolveExplicitFlows tp.1 extracted.sequence_flows []
  let fl2 := nextTaskFlows tp.1 tp.1 fl1
  let fl3 := convertSynthFlows tp.1 fl2
  { s3 with
    tasks := tp.1
    task_role_map := trm
    task_process_map := tp.2
    sequence_flows := fl3 }

/-- Accumulator of graph.py _create_sequence_flows: `created` models the
`created_flows` Python set, `out` records the flows emitted (each emission
is a `link_task_sequence` call, a MERGE of a NEXT edge in the graph store). -/
structure FlowAcc where
  created : List (String × String)
  out : List SeqFlow
deriving Repr, DecidableEq

/-- graph.py lines 265-273: the explicit-flow pass of _create_sequence_flows.
A flow is emitted when both ids are truthy and the pair is not already in
`created_flows`; the pair is then added to the set. -/
def emitExplicitFlows : List SeqFlow → FlowAcc → FlowAcc
  | [], acc => acc
  | f :: rest, acc =>
    if f.from_task_id ≠ "" ∧ f.to_task_id ≠ "" ∧ pairOf f ∉ acc.created then
      emitExplicitFlows rest
        { created := pairOf f :: acc.created, out := acc.out ++ [f] }
    else emitExplicitFlows rest acc

/-- graph.py lines 287-293: the consecutive chain over one sorted group,
guarded by (and extending) the accumulated `created_flows` set. -/
def emitChain : List Task → FlowAcc → FlowAcc
  | a :: b :: rest, acc =>
    if (a.task_id, b.task_id) ∉ acc.created then
      emitChain (b :: rest)
        { created := (a.task_id, b.task_id) :: acc.created
          out := acc.out ++
            [{ from_task_id := a.task_id, to_task_id := b.task_id, condition := "" }] }
    else emitChain (b :: rest) acc
  | _, acc => acc

/-- graph.py lines 275-293: the order-based pass of _create_sequence_flows,
iterating the process groups in first-occurrence order. -/
def emitOrderFlows (tasks : List Task) (acc : FlowAcc) : FlowAcc :=
  (groupKeys tasks).foldl
    (fun a k => emitChain (sortByOrder (tasks.filter (fun t => procKey t = k))) a)
    acc

/-- graph.py lines 261-299: PDF2BPMNWorkflow._create_sequence_flows as the
list of NEXT edges it emits, in emission order.  The trailing
`create_task_sequence_for_process` calls run a MERGE inside the graph
store, which by its uniqueness semantics cannot duplicate an emitted
`(from, to)` edge, so the emitted set is the synthesis result. -/
def create_sequence_flows (flows : List SeqFlow) (tasks : List Task) : List SeqFlow :=
  (emitOrderFlows tasks (emitExplicitFlows flows { created := [], out := [] })).out

/-- graph.py lines 325-341: PDF2BPMNWorkflow._infer_task_process_relationships.
With no processes the task list is untouched; otherwise every task with an
empty process_id is re-pointed at the first process of the consolidated
list. -/
def infer_task_process_relationships (processes : List Process) (tasks : List Task) :
    List Task :=
  match processes with
  | [] => tasks
  | p :: _ =>
    tasks.map (fun t => if t.process_id = "" then { t with process_id := p.proc_id } else t)

/-- config.py line 31: Config.SIMILARITY_MERGE_THRESHOLD. -/
def mergeThreshold : ℚ := 90 / 100

/-- config.py line 32: Config.SIMILARITY_REVIEW_THRESHOLD. -/
def reviewThreshold : ℚ := 80 / 100

/-- vector_search.py lines 87-98: the best-match fold of find_similar_entity
(strictly-greater update, so the first of equal scores wins). -/
def bestMatch {M : Type} (sim : M → ℚ) (cands : List M) : Option M × ℚ :=
  cands.foldl
    (fun acc m => if sim m > acc.2 then (some m, sim m) else acc)
    (none, 0)

/-- vector_search.py lines 100-106: the threshold decision of
find_similar_entity (inclusive lower bounds). -/
def decideAction (best_score : ℚ) : String :=
  if best_score ≥ mergeThreshold then "merge"
  else if best_score ≥ reviewThreshold then "review"
  else "create"

/-- vector_search.py lines 59-106: VectorSearch.find_similar_entity, with
the external full-text candidates and the embedding cosine similarity
supplied as oracle inputs `cands` and `sim`. -/
def find_similar_entity {M : Type} (cands : List M) (sim : M → ℚ) :
    Option M × ℚ × String :=
  if cands.isEmpty then (none, 0, "create")
  else
    let best := bestMatch sim cands
    (best.1, best.2, decideAction best.2)

/-- The outcome of one find_similar_entity call as _deduplicate_entities
sees it: `none` models the call raising (the bare `except: pass`), `some`
the returned (match, score, action) triple with the match abstracted to its
presence. -/
def SimOutcome : Type := Option (Bool × ℚ × String)

/-- graph.py lines 343-368: PDF2BPMNWorkflow._deduplicate_entities, generic
in the entity type.  `nameOf` reads the `.name` attribute, `oracle` stands
for the find_similar_entity call, `seen` for the keys of `seen_names`.  An
entity is dropped when its lowercased trimmed name was already seen, or when
the oracle returns action "merge" with a non-null match; "review" and
"create" both fall through and keep the entity.  The drop condition
`action == "merge" and match` is factored out here. -/
def dropDecision {E : Type} (oracle : E → SimOutcome) (e : E) : Bool :=
  match oracle e with
  | some r => decide (r.2.2 = "merge") && r.1
  | none => false

/-- graph.py lines 343-368, continued: the per-entity dedup loop itself. -/
def deduplicate_entities {E : Type} (nameOf : E → String) (oracle : E → SimOutcome) :
    List E → List String → List E
  | [], _ => []
  | e :: rest, seen =>
    if strTrim (strLower (nameOf e)) ∈ seen then
      deduplicate_entities nameOf oracle rest seen
    else if dropDecision oracle e then
      deduplicate_entities nameOf oracle rest seen
    else
      e :: deduplicate_entities nameOf oracle rest (strTrim (strLower (nameOf e)) :: seen)

/-- Single straight quote character, used in the ambiguity question text. -/
def squote : String := String.singleton (Char.ofNat 39)

/-- graph.py lines 388-395: the question built for one task lacking a role. -/
def mkQuestion (roleNames : List String) (idn : Nat) (t : Task) : Ambiguity :=
  { amb_id := "amb" ++ toString idn
    entity_type := "Task"
    entity_id := t.task_id
    question := squote ++ t.name ++ squote ++ " 태스크의 담당 역할은 누구인가요?"
    options := roleNames ++ ["새 역할 추가", "미정"]
    status := AmbiguityStatus.statusOpen }

/-- Builds the question batch with fresh ambiguity ids. -/
def mkQuestions (roleNames : List String) : Nat → List Task → List Ambiguity
  | _, [] => []
  | idn, t :: rest => mkQuestion roleNames idn t :: mkQuestions roleNames (idn + 1) rest

/-- graph.py lines 370-407: PDF2BPMNWorkflow.detect_ambiguities restricted
to the questions it returns (persistence and the printed statistics are
side effects on external collaborators).  Questions are generated only when
both a role-less task and at least one role exist, and are capped at 10. -/
def detect_ambiguities (tasks : List Task) (roles : List Role)
    (task_role_map : List (String × String)) (idStart : Nat) : List Ambiguity :=
  let tasks_without_roles := tasks.filter (fun t => !(dmem task_role_map t.task_id))
  if tasks_without_roles ≠ [] ∧ roles ≠ [] then
    mkQuestions (roles.map Role.name) idStart (tasks_without_roles.take 10)
  else []

/-- Follows the words of the spec sentence under test (claim C7), for
comparison with the source resolution: an exact case-insensitive pass over
the tasks first, then a second pass accepting substring containment in
either direction, the first match in insertion order winning. -/
def claimTwoPassResolve (tasks : List Task) (tn : String) : Option String :=
  match tasks.find? (fun t => (strLower t.name) == tn) with
  | some t => some t.task_id
  | none =>
    (tasks.find? (fun t => strIn tn (strLower t.name) || strIn (strLower t.name) tn)).map
      Task.task_id

/-- An oracle task candidate with only a name (all other fields absent). -/
def bareTask (nm : String) : TaskCand :=
  { name := some nm, task_type := none, description := none, order := none
    performer_role := none, parent_process := none, next_task := none
    previous_task := none }

/-- An oracle task candidate with a name, an integer order and a parent
process name. -/
def orderedTask (nm : String) (ord : Int) (parent : String) : TaskCand :=
  { bareTask nm with order := some (some ord), parent_process := some parent }

/-- An empty candidate set, to be completed by structure update. -/
def emptyExtracted : ExtractedEntities :=
  { processes := [], tasks := [], roles := [], task_role_mappings := []
    task_process_mappings := [], sequence_flows := [] }

/-- Chunk input for the C1 counterexample: no process candidate, one task
whose parent_process matches nothing in the registry. -/
def exC1 : ExtractedEntities :=
  { emptyExtracted with tasks := [{ bareTask "t" with parent_process := some "zzz" }] }

/-- Chunk input for the C2 counterexample: the oracle re-emits a process
whose normalized name is already in the registry. -/
def exC2 : ExtractedEntities :=
  { emptyExtracted with processes := [{ name := some "P", description := none }] }

/-- Chunk input for the C6 counterexample: the same process name is
registered twice in one batch. -/
def exC6 : ExtractedEntities :=
  { emptyExtracted with
    processes := [{ name := some "P", description := none },
                  { name := some "P", description := none }] }

/-- Chunk input for the C7 counterexample: a task whose name merely contains
the mapping's task_name precedes a task whose name is an exact match. -/
def exC7 : ExtractedEntities :=
  { emptyExtracted with
    tasks := [bareTask "ab c", bareTask "ab"]
    task_role_mappings := [{ task_name := some "ab", role_name := some "r" }] }

/-- Chunk input for the C8 counterexample: the oracle emits a sequence flow
whose two endpoints resolve to the same task. -/
def exC8 : ExtractedEntities :=
  { emptyExtracted with
    tasks := [bareTask "a"]
    sequence_flows := [{ from_task := some "a", to_task := some "a", condition := none }] }

/-- Chunk input for the C9 counterexample: a candidate role whose name is
present but is the empty string. -/
def exC9 : ExtractedEntities :=
  { emptyExtracted with
    roles := [{ name := some "", org_unit := none, persona_hint := none
                description := none }] }

/-- Chunk A of Scenario C: one process and tasks with orders 1, 2, 3. -/
def exChunkA : ExtractedEntities :=
  { emptyExtracted with
    processes := [{ name := some "Proc", description := none }]
    tasks := [orderedTask "taskA1" 1 "Proc", orderedTask "taskA2" 2 "Proc",
              orderedTask "taskA3" 3 "Proc"] }

/-- Chunk B of Scenario C: no new process, tasks with orders 4..8 naming the
existing process. -/
def exChunkB : ExtractedEntities :=
  { emptyExtracted with
    tasks := [orderedTask "taskB4" 4 "Proc", orderedTask "taskB5" 5 "Proc",
              orderedTask "taskB6" 6 "Proc", orderedTask "taskB7" 7 "Proc",
              orderedTask "taskB8" 8 "Proc"] }

/-- Conversion of Scenario C chunk A against an empty registry. -/
def convA : CState := convert_to_entities exChunkA [] [] 0

/-- Conversion of Scenario C chunk B against the registry produced by
chunk A, with the id counter carried over (as extract_candidates does by
passing its accumulated name maps). -/
def convB : CState :=
  convert_to_entities exChunkB convA.process_name_to_id convA.role_name_to_id convA.nextId

/-- The consolidated task list of Scenario C. -/
def allTasksC5 : List Task := convA.tasks ++ convB.tasks

/-- The accumulated per-chunk sequence flows of Scenario C. -/
def allFlowsC5 : List SeqFlow := convA.sequence_flows ++ convB.sequence_flows

/-- A concrete process used by witnesses. -/
def pWitness : Process :=
  { proc_id := "PROC1", name := "P", purpose := "", description := "" }

/-- A concrete task with an empty process_id, used by witnesses. -/
def tOrphan : Task :=
  { task_id := "T1", process_id := "", name := "t", task_type := TaskType.human
    description := "", order := 0, next_task_name := none, previous_task_name := none }

/-- A concrete similarity oracle that reports a borderline (review-band)
match for every entity. -/
def reviewOracle : Process → SimOutcome := fun _ => some (true, 17 / 20, "review")

/-- Name accessor used when deduplicating processes. -/
def pname (p : Process) : String := p.name

/-- A concrete near-duplicate process candidate for the C3 scenarios. -/
def procC3 : Process :=
  { proc_id := "X", name := "NearDup", purpose := "", description := "" }

/-- A one-element full-text match list for the C3 witness. -/
def candsC3 : List Unit := [()]

/-- A similarity function scoring every match at 0.85. -/
def simC3 : Unit → ℚ := fun _ => 17 / 20

/-- A concrete role candidate with a missing name, for the C9 witness. -/
def rNoName : RoleCand :=
  { name := none, org_unit := none, persona_hint := none, description := none }

/-- Concrete task list for the C7 witness: a substring match precedes an
exact match. -/
def tasksC7w : List Task :=
  [{ task_id := "t1", process_id := "", name := "ab c", task_type := TaskType.human
     description := "", order := 0, next_task_name := none, previous_task_name := none },
   { task_id := "t2", process_id := "", name := "ab", task_type := TaskType.human
     description := "", order := 1, next_task_name := none, previous_task_name := none }]

/-- Concrete two-task process for the C8 witness. -/
def tA : Task :=
  { task_id := "a1", process_id := "P", name := "first", task_type := TaskType.human
    description := "", order := 1, next_task_name := none, previous_task_name := none }

/-- Second concrete task for the C8 witness. -/
def tB : Task :=
  { task_id := "a2", process_id := "P", name := "second", task_type := TaskType.human
    description := "", order := 2, next_task_name := none, previous_task_name := none }

/-- The flow synthesized between tA and tB. -/
def fAB : SeqFlow :=
  { from_task_id := "a1", to_task_id := "a2", condition := "" }

/-- Looking a key up right after setting it yields the value just set. -/
theorem dget_dset_self (d : List (String × String)) (k v : String) :
    dget (dset d k v) k = some v := by
  induction d with
  | nil => simp [dset, dget]
  | cons h t ih =>
    obtain ⟨k1, v1⟩ := h
    by_cases hk : k1 = k
    · simp [dset, hk, dget]
    · simp [dset, hk, dget, ih]

/-- A key just set is a member of the dictionary. -/
theorem dmem_dset_self (d : List (String × String)) (k v : String) :
    dmem (dset d k v) k = true := by
  simp [dmem, dget_dset_self]

/-- Stable insertion produces a permutation of consing. -/
theorem insertByOrder_perm (t : Task) (l : List Task) :
    (insertByOrder t l).Perm (t :: l) := by
  induction l with
  | nil => exact List.Perm.refl _
  | cons x xs ih =>
    simp only [insertByOrder]
    split
    · exact List.Perm.refl _
    · exact (ih.cons x).trans (List.Perm.swap t x xs)

/-- The stable sort permutes its input. -/
theorem sortByOrder_perm : ∀ l : List Task, (sortByOrder l).Perm l
  | [] => List.Perm.refl _
  | t :: rest =>
    (insertByOrder_perm t (sortByOrder rest)).trans ((sortByOrder_perm rest).cons t)

/-- C10: when the consolidated role list is empty, detect_ambiguities
returns no questions at all, for every task list and every task-role map;
role-less tasks are then visible only in the printed run statistics. -/
theorem c10_no_roles_no_questions (tasks : List Task)
    (task_role_map : List (String × String)) (idStart : Nat) :
    detect_ambiguities tasks [] task_role_map idStart = [] := by
  simp [detect_ambiguities]

/-- C5 (Scenario C): tasks with orders 1..3 converted from chunk A and 4..8
from chunk B, all resolved to the same process and with no oracle-extracted
explicit flows, make sequence synthesis emit exactly the 7 edges of the
linear chain 1-2, 2-3, 3-4, 4-5, 5-6, 6-7, 7-8. -/
theorem c5_scenario_c_linear_chain :
    ((create_sequence_flows allFlowsC5 allTasksC5).map pairOf).Perm
        [("id1", "id2"), ("id2", "id3"), ("id3", "id4"), ("id4", "id5"),
         ("id5", "id6"), ("id6", "id7"), ("id7", "id8")] ∧
      (create_sequence_flows allFlowsC5 allTasksC5).length = 7 := by
  constructor
  · decide
  · decide

/-- C1 counterexample: with the non-empty process registry [("p1", "P1")]
at ingestion time, the chunk of exC1 (no process candidate, a task whose
parent_process matches nothing) leaves the emitted task with an empty
process_id, and the fallback did not use the first process of the run. -/
theorem c1_counterexample :
    dmem [("p1", "P1")] "p1" = true ∧
      (convert_to_entities exC1 [("p1", "P1")] [] 0).tasks.map Task.process_id = [""] := by
  decide

/-- C2 counterexample: the candidate process of exC2 has normalized name
"p" which is already a registry key bound to "P1", yet conversion creates a
new Process entity and rebinds the registry key to the fresh id "id0". -/
theorem c2_counterexample :
    (convert_to_entities exC2 [("p", "P1")] [] 0).processes.length = 1 ∧
      dget (convert_to_entities exC2 [("p", "P1")] [] 0).process_name_to_id "p"
          = some "id0" ∧
      ("id0" : String) ≠ "P1" := by
  decide

/-- C3 counterexample: at a similarity of 0.85 the decision function
returns "review", yet the deduplication caller keeps the candidate in the
returned canonical list, i.e. it does silently add it. -/
theorem c3_counterexample :
    decideAction (17 / 20) = "review" ∧
      deduplicate_entities pname reviewOracle [procC3] [] = [procC3] := by
  constructor
  · have h1 : ¬ ((17 / 20 : ℚ) ≥ mergeThreshold) := by norm_num [mergeThreshold]
    have h2 : (17 / 20 : ℚ) ≥ reviewThreshold := by norm_num [reviewThreshold]
    simp [decideAction, h1, h2]
  · decide

/-- C6 counterexample: registering the process name "P" a second time in
one batch creates a second Process object and rebinds the registry to the
second minted id, so registration is not idempotent for the Process kind. -/
theorem c6_counterexample :
    (convert_to_entities exC6 [] [] 0).processes.map Process.proc_id = ["id0", "id1"] ∧
      dget (convert_to_entities exC6 [] [] 0).process_name_to_id "p" = some "id1" ∧
      ("id1" : String) ≠ "id0" := by
  decide

/-- C7 counterexample: for the mapping with task_name "ab", the source
resolution assigns the role to the first task "ab c" (a one-directional
substring hit), although the later task "ab" is an exact match; the
two-pass exact-first resolution described by the claim would pick "id1". -/
theorem c7_counterexample :
    (convert_to_entities exC7 [] [("r", "R1")] 0).task_role_map = [("id0", "R1")] ∧
      claimTwoPassResolve (convert_to_entities exC7 [] [("r", "R1")] 0).tasks "ab"
          = some "id1" ∧
      ("id0" : String) ≠ "id1" := by
  decide

/-- C8 counterexample: the oracle flow of exC8 resolves both endpoints to
the same task, and both convert_to_entities and _create_sequence_flows emit
the reflexive edge (id0, id0). -/
theorem c8_counterexample :
    (convert_to_entities exC8 [] [] 0).sequence_flows
        = [{ from_task_id := "id0", to_task_id := "id0", condition := "" }] ∧
      create_sequence_flows (convert_to_entities exC8 [] [] 0).sequence_flows
          (convert_to_entities exC8 [] [] 0).tasks
        = [{ from_task_id := "id0", to_task_id := "id0", condition := "" }] := by
  decide

/-- C9 counterexample: a candidate role whose name is present but empty is
converted with name "" and registered under the key "", not defaulted to
"Unknown Role". -/
theorem c9_counterexample :
    (convert_to_entities exC9 [] [] 0).roles.map Role.name = [""] ∧
      dmem (convert_to_entities exC9 [] [] 0).role_name_to_id "" = true ∧
      dmem (convert_to_entities exC9 [] [] 0).role_name_to_id "unknown role" = false := by
  decide

/-- C1 amended: at ingestion a task whose parent_process fails the exact
registry match falls back to the first process of the SAME CHUNK, or keeps
an empty process_id when the chunk extracted none; the
_infer_task_process_relationships repair pass then guarantees a non-empty
process_id for every task whenever the consolidated process list is
non-empty (its head having a non-empty id). -/
theorem c1_amended_repair (p : Process) (ps : List Process) (tasks : List Task)
    (h : p.proc_id ≠ "") :
    ∀ t ∈ infer_task_process_relationships (p :: ps) tasks, t.process_id ≠ "" := by
  intro t ht
  simp only [infer_task_process_relationships, List.mem_map] at ht
  obtain ⟨u, hu, rfl⟩ := ht
  by_cases hcase : u.process_id = ""
  · simpa [hcase] using h
  · simp [hcase]

/-- Witness for c1_amended_repair at a concrete process and orphan task. -/
theorem c1_amended_repair_witness :
    pWitness.proc_id ≠ "" ∧
      ({ tOrphan with process_id := pWitness.proc_id } : Task).process_id ≠ "" :=
  ⟨by decide,
   c1_amended_repair pWitness [] [tOrphan] (by decide)
     { tOrphan with process_id := pWitness.proc_id } (by decide)⟩

/-- C6 amended: for the Role kind, registration is idempotent: converting
the same candidate role a second time is a no-op on the whole conversion
state (same registry, same role list, same minted ids).  The Process kind
(see the counterexample) does not have this property. -/
theorem c6_amended_role_registration_idempotent (r : RoleCand) (s : CState) :
    convertRoles [r] (convertRoles [r] s) = convertRoles [r] s := by
  by_cases h : dmem s.role_name_to_id (strLower (r.name.getD "Unknown Role")) = true
  · simp [convertRoles, h]
  · have h2 := dmem_dset_self s.role_name_to_id
      (strLower (r.name.getD "Unknown Role")) (mkId s.nextId)
    simp [convertRoles, h, h2]

/-- C9 amended: a candidate role with a MISSING name field is defaulted to
"Unknown Role" and registered without raising; a present-but-empty name is
instead kept as "" (see the counterexample). -/
theorem c9_amended_missing_name (r : RoleCand) (s : CState)
    (hname : r.name = none)
    (hmem : dmem s.role_name_to_id "unknown role" = false) :
    (convertRoles [r] s).roles.map Role.name = s.roles.map Role.name ++ ["Unknown Role"] ∧
      dmem (convertRoles [r] s).role_name_to_id "unknown role" = true := by
  have hkey : strLower "Unknown Role" = "unknown role" := by decide
  have h2 := dmem_dset_self s.role_name_to_id "unknown role" (mkId s.nextId)
  simp [convertRoles, hname, hkey, hmem, h2]

/-- Witness for c9_amended_missing_name at a concrete nameless candidate. -/
theorem c9_amended_missing_name_witness :
    rNoName.name = none ∧
      dmem (initState 0 [] []).role_name_to_id "unknown role" = false ∧
      ((convertRoles [rNoName] (initState 0 [] [])).roles.map Role.name
          = (initState 0 [] []).roles.map Role.name ++ ["Unknown Role"] ∧
        dmem (convertRoles [rNoName] (initState 0 [] [])).role_name_to_id "unknown role"
          = true) :=
  ⟨rfl, rfl, c9_amended_missing_name rNoName (initState 0 [] []) rfl rfl⟩

/-- C7 amended: the source resolves a named task reference in ONE pass over
the tasks in insertion order, accepting a task whose lowercased name equals
the candidate name or contains it as a substring (one direction only), with
the first acceptable task winning; exact matches get no priority over
substring matches.  Formally, when the role name is a registry key, the
assignment goes to the first task found by that single combined predicate. -/
theorem c7_amended_single_pass (rntid trm : List (String × String)) (tn rn : String)
    (tasks : List Task) (h : dmem rntid rn = true) :
    assignRoleMapping rntid trm tn rn tasks =
      match tasks.find?
          (fun t => decide (strLower t.name = tn) || strIn tn (strLower t.name)) with
      | some t => dset trm t.task_id ((dget rntid rn).getD "")
      | none => trm := by
  induction tasks with
  | nil => rfl
  | cons t rest ih =>
    by_cases hp : strLower t.name = tn ∨ strIn tn (strLower t.name) = true
    · have hb : (decide (strLower t.name = tn) || strIn tn (strLower t.name)) = true := by
        rcases hp with h1 | h1 <;> simp [h1]
      rw [List.find?_cons_of_pos
        (p := fun (u : Task) => decide (strLower u.name = tn) || strIn tn (strLower u.name)) _ hb]
      simp only [assignRoleMapping]
      rw [if_pos ⟨hp, h⟩]
    · have hb : ¬ ((decide (strLower t.name = tn) || strIn tn (strLower t.name)) = true) := by
        simp only [Bool.or_eq_true, decide_eq_true_eq]
        exact hp
      rw [List.find?_cons_of_neg
        (p := fun (u : Task) => decide (strLower u.name = tn) || strIn tn (strLower u.name)) _ hb]
      simp only [assignRoleMapping]
      rw [if_neg (fun hc => hp hc.1)]
      exact ih

/-- Witness for c7_amended_single_pass: on tasksC7w the single pass assigns
the role to the first, substring-matching task. -/
theorem c7_amended_single_pass_witness :
    dmem [("r", "R1")] "r" = true ∧
      assignRoleMapping [("r", "R1")] [] "ab" "r" tasksC7w = [("t1", "R1")] :=
  ⟨by decide, c7_amended_single_pass [("r", "R1")] [] "ab" "r" tasksC7w (by decide)⟩

/-- The dedup loop keeps names that are fresh relative to `seen` and never
keeps two entities with the same normalized name. -/
theorem dedup_aux {E : Type} (nameOf : E → String) (oracle : E → SimOutcome) :
    ∀ (es : List E) (seen : List String),
      ((deduplicate_entities nameOf oracle es seen).map
          (fun e => strTrim (strLower (nameOf e)))).Nodup ∧
        ∀ e ∈ deduplicate_entities nameOf oracle es seen,
          strTrim (strLower (nameOf e)) ∉ seen
  | [], seen => by simp [deduplicate_entities]
  | e :: rest, seen => by
    by_cases h1 : strTrim (strLower (nameOf e)) ∈ seen
    · simp only [deduplicate_entities, if_pos h1]
      exact dedup_aux nameOf oracle rest seen
    · by_cases h2 : dropDecision oracle e = true
      · simp only [deduplicate_entities, if_neg h1, if_pos h2]
        exact dedup_aux nameOf oracle rest seen
      · simp only [deduplicate_entities, if_neg h1, if_neg h2]
        have ih := dedup_aux nameOf oracle rest (strTrim (strLower (nameOf e)) :: seen)
        refine ⟨?_, ?_⟩
        · rw [List.map_cons, List.nodup_cons]
          refine ⟨?_, ih.1⟩
          intro hmem
          rw [List.mem_map] at hmem
          obtain ⟨x, hx, hxeq⟩ := hmem
          exact (ih.2 x hx) (by rw [hxeq]; exact List.mem_cons_self _ _)
        · intro x hx
          rcases List.mem_cons.mp hx with hx1 | hx2
          · rw [hx1]; exact h1
          · intro hseen
            exact (ih.2 x hx2) (List.mem_cons_of_mem _ hseen)

/-- C2 amended: during per-chunk ingestion a candidate Process whose
normalized name is already registered IS converted into a new Process
entity, and the registry key is rebound to the fresh id; the duplicate is
absorbed only by the batch deduplication pass, which keeps at most one
entity per normalized (lowercased, trimmed) name. -/
theorem c2_amended_duplicate_created_then_batch_deduped :
    (∀ (p : ProcCand) (s : CState),
        (convertProcesses [p] s).processes.length = s.processes.length + 1 ∧
          dget (convertProcesses [p] s).process_name_to_id
              (strLower (p.name.getD "Unknown Process")) = some (mkId s.nextId)) ∧
      ∀ (E : Type) (nameOf : E → String) (oracle : E → SimOutcome) (es : List E),
        ((deduplicate_entities nameOf oracle es []).map
            (fun e => strTrim (strLower (nameOf e)))).Nodup := by
  constructor
  · intro p s
    constructor
    · simp [convertProcesses]
    · simp [convertProcesses, dget_dset_self]
  · intro E nameOf oracle es
    exact (dedup_aux nameOf oracle es []).1

/-- C3 amended: in the review band the decision function does return the
"review" sentinel, but the deduplication caller treats "review" exactly
like "create": the candidate is silently added to the canonical list it
returns (only an identical normalized name already seen would stop it). -/
theorem c3_amended_review_band_kept {M E : Type} (cands : List M) (sim : M → ℚ)
    (s : ℚ) (hne : cands ≠ []) (hbest : (bestMatch sim cands).2 = s)
    (h1 : reviewThreshold ≤ s) (h2 : s < mergeThreshold)
    (nameOf : E → String) (oracle : E → SimOutcome) (e : E) (rest : List E)
    (horacle : oracle e = some (true, s, "review")) :
    (find_similar_entity cands sim).2.2 = "review" ∧
      e ∈ deduplicate_entities nameOf oracle (e :: rest) [] := by
  constructor
  · have hemp : cands.isEmpty = false := by
      cases cands with
      | nil => exact absurd rfl hne
      | cons a l => rfl
    simp only [find_similar_entity, hemp, Bool.false_eq_true, if_false]
    simp only [decideAction, hbest]
    rw [if_neg (not_le.mpr h2), if_pos h1]
  · simp only [deduplicate_entities]
    rw [if_neg (List.not_mem_nil _)]
    have hdrop : dropDecision oracle e = false := by
      simp [dropDecision, horacle]
    rw [if_neg (by simp [hdrop])]
    exact List.mem_cons_self _ _

/-- Witness for c3_amended_review_band_kept at score 0.85. -/
theorem c3_amended_review_band_kept_witness :
    candsC3 ≠ [] ∧ (bestMatch simC3 candsC3).2 = 17 / 20 ∧
      reviewThreshold ≤ (17 / 20 : ℚ) ∧ (17 / 20 : ℚ) < mergeThreshold ∧
      reviewOracle procC3 = some (true, 17 / 20, "review") ∧
      ((find_similar_entity candsC3 simC3).2.2 = "review" ∧
        procC3 ∈ deduplicate_entities pname reviewOracle (procC3 :: []) []) :=
  ⟨by decide,
   by simp only [bestMatch, candsC3, simC3, List.foldl]; rw [if_pos (by norm_num)],
   by norm_num [reviewThreshold],
   by norm_num [mergeThreshold],
   rfl,
   c3_amended_review_band_kept candsC3 simC3 (17 / 20) (by decide)
     (by simp only [bestMatch, candsC3, simC3, List.foldl]; rw [if_pos (by norm_num)])
     (by norm_num [reviewThreshold]) (by norm_num [mergeThreshold])
     pname reviewOracle procC3 [] rfl⟩

/-- The explicit-flow pass preserves the invariant that the emitted pairs
are distinct and all recorded in `created_flows`. -/
theorem emitExplicitFlows_inv :
    ∀ (fs : List SeqFlow) (acc : FlowAcc),
      (acc.out.map pairOf).Nodup → (∀ f ∈ acc.out, pairOf f ∈ acc.created) →
      ((emitExplicitFlows fs acc).out.map pairOf).Nodup ∧
        ∀ f ∈ (emitExplicitFlows fs acc).out, pairOf f ∈ (emitExplicitFlows fs acc).created
  | [], _, h1, h2 => ⟨h1, h2⟩
  | f :: rest, acc, h1, h2 => by
    simp only [emitExplicitFlows]
    split
    · next hc =>
      have hnotin : pairOf f ∉ acc.out.map pairOf := by
        intro hmem
        rw [List.mem_map] at hmem
        obtain ⟨g, hg, hge⟩ := hmem
        exact hc.2.2 (hge ▸ h2 g hg)
      apply emitExplicitFlows_inv rest
      · rw [List.map_append, List.nodup_append]
        refine ⟨h1, List.nodup_singleton _, ?_⟩
        intro x hx hx2
        simp only [List.map_cons, List.map_nil, List.mem_singleton] at hx2
        subst hx2
        exact hnotin hx
      · intro g hg
        rcases List.mem_append.mp hg with hg1 | hg1
        · exact List.mem_cons_of_mem _ (h2 g hg1)
        · rw [List.mem_singleton] at hg1
          subst hg1
          exact List.mem_cons_self _ _
    · exact emitExplicitFlows_inv rest acc h1 h2

/-- The per-group chain pass preserves the same invariant. -/
theorem emitChain_inv :
    ∀ (l : List Task) (acc : FlowAcc),
      (acc.out.map pairOf).Nodup → (∀ f ∈ acc.out, pairOf f ∈ acc.created) →
      ((emitChain l acc).out.map pairOf).Nodup ∧
        ∀ f ∈ (emitChain l acc).out, pairOf f ∈ (emitChain l acc).created
  | [], _, h1, h2 => ⟨h1, h2⟩
  | [_], _, h1, h2 => ⟨h1, h2⟩
  | a :: b :: rest, acc, h1, h2 => by
    simp only [emitChain]
    split
    · next hc =>
      have hnotin : ((a.task_id, b.task_id) : String × String) ∉ acc.out.map pairOf := by
        intro hmem
        rw [List.mem_map] at hmem
        obtain ⟨g, hg, hge⟩ := hmem
        exact hc (hge ▸ h2 g hg)
      apply emitChain_inv (b :: rest)
      · rw [List.map_append, List.nodup_append]
        refine ⟨h1, List.nodup_singleton _, ?_⟩
        intro x hx hx2
        simp only [List.map_cons, List.map_nil, List.mem_singleton] at hx2
        subst hx2
        exact hnotin hx
      · intro g hg
        rcases List.mem_append.mp hg with hg1 | hg1
        · exact List.mem_cons_of_mem _ (h2 g hg1)
        · rw [List.mem_singleton] at hg1
          subst hg1
          exact List.mem_cons_self _ _
    · exact emitChain_inv (b :: rest) acc h1 h2

/-- Folding the chain pass over all group keys preserves the invariant. -/
theorem chainFold_inv (g : String → List Task) :
    ∀ (ks : List String) (acc : FlowAcc),
      (acc.out.map pairOf).Nodup → (∀ f ∈ acc.out, pairOf f ∈ acc.created) →
      (((ks.foldl (fun a k => emitChain (g k) a) acc).out.map pairOf).Nodup ∧
        ∀ f ∈ (ks.foldl (fun a k => emitChain (g k) a) acc).out,
          pairOf f ∈ (ks.foldl (fun a k => emitChain (g k) a) acc).created)
  | [], _, h1, h2 => ⟨h1, h2⟩
  | k :: ks, acc, h1, h2 => by
    simp only [List.foldl]
    have step := emitChain_inv (g k) acc h1 h2
    exact chainFold_inv g ks (emitChain (g k) acc) step.1 step.2

/-- C4: a single run of sequence-flow synthesis never emits the same
(from_task_id, to_task_id) pair twice, and re-running it over the same
input yields the same edge set, so the edge count cannot grow (each emitted
edge is a MERGE in the graph store, keyed by the pair). -/
theorem c4_sequence_synthesis_idempotent (flows : List SeqFlow) (tasks : List Task) :
    ((create_sequence_flows flows tasks).map pairOf).Nodup ∧
      ((create_sequence_flows flows tasks ++ create_sequence_flows flows tasks).map
          pairOf).toFinset
        = ((create_sequence_flows flows tasks).map pairOf).toFinset := by
  constructor
  · have base := emitExplicitFlows_inv flows { created := [], out := [] }
      (by simp) (by simp)
    have fin := chainFold_inv
      (fun k => sortByOrder (tasks.filter (fun t => procKey t = k)))
      (groupKeys tasks) (emitExplicitFlows flows { created := [], out := [] })
      base.1 base.2
    exact fin.1
  · simp [List.map_append, List.toFinset_append]

/-- Any flow emitted by the chain pass beyond the incoming accumulator
connects two consecutive tasks of a duplicate-free id list, hence is
irreflexive. -/
theorem emitChain_irrefl :
    ∀ (l : List Task) (acc : FlowAcc), (l.map Task.task_id).Nodup →
      ∀ f ∈ (emitChain l acc).out, f ∈ acc.out ∨ f.from_task_id ≠ f.to_task_id
  | [], _, _, _, hf => Or.inl hf
  | [_], _, _, _, hf => Or.inl hf
  | a :: b :: rest, acc, hnd, f, hf => by
    have hab : a.task_id ≠ b.task_id := by
      have h1 := (List.nodup_cons.mp hnd).1
      intro he
      apply h1
      rw [List.map_cons, he]
      exact List.mem_cons_self _ _
    have hrest : ((b :: rest).map Task.task_id).Nodup := (List.nodup_cons.mp hnd).2
    revert hf
    simp only [emitChain]
    split
    · intro hf
      rcases emitChain_irrefl (b :: rest) _ hrest f hf with hin | hneq
      · rcases List.mem_append.mp hin with hmem | hmem
        · exact Or.inl hmem
        · rw [List.mem_singleton] at hmem
          subst hmem
          exact Or.inr hab
      · exact Or.inr hneq
    · intro hf
      exact emitChain_irrefl (b :: rest) acc hrest f hf

/-- Folded version of the previous lemma over all group keys. -/
theorem foldChain_irrefl (g : String → List Task) (base : List SeqFlow)
    (hg : ∀ k, ((g k).map Task.task_id).Nodup) :
    ∀ (ks : List String) (acc : FlowAcc),
      (∀ f ∈ acc.out, f ∈ base ∨ f.from_task_id ≠ f.to_task_id) →
      ∀ f ∈ (ks.foldl (fun a k => emitChain (g k) a) acc).out,
        f ∈ base ∨ f.from_task_id ≠ f.to_task_id
  | [], _, hacc, f, hf => hacc f hf
  | k :: ks, acc, hacc, f, hf => by
    simp only [List.foldl] at hf
    apply foldChain_irrefl g base hg ks (emitChain (g k) acc) _ f hf
    intro f2 hf2
    rcases emitChain_irrefl (g k) acc (hg k) f2 hf2 with hmem | hneq
    · exact hacc f2 hmem
    · exact Or.inr hneq

/-- C8 amended: explicit flows resolved from the oracle can be reflexive
(see the counterexample), but every flow the order-based synthesis adds on
top of the explicit pass is irreflexive, as long as the tasks carry
pairwise distinct ids (which freshly minted ids guarantee). -/
theorem c8_amended_synthesized_flows_irreflexive (flows : List SeqFlow)
    (tasks : List Task) (h : (tasks.map Task.task_id).Nodup) :
    ∀ f ∈ create_sequence_flows flows tasks,
      f ∈ (emitExplicitFlows flows { created := [], out := [] }).out ∨
        f.from_task_id ≠ f.to_task_id := by
  have hg : ∀ k, ((sortByOrder (tasks.filter (fun t => procKey t = k))).map
      Task.task_id).Nodup := by
    intro k
    have hsub : (tasks.filter (fun t => procKey t = k)).Sublist tasks :=
      List.filter_sublist _
    have hnd2 : ((tasks.filter (fun t => procKey t = k)).map Task.task_id).Nodup :=
      h.sublist (hsub.map Task.task_id)
    exact ((sortByOrder_perm _).map Task.task_id).nodup_iff.mpr hnd2
  exact foldChain_irrefl _ _ hg (groupKeys tasks)
    (emitExplicitFlows flows { created := [], out := [] })
    (fun f hf => Or.inl hf)

/-- Witness for c8_amended_synthesized_flows_irreflexive: the flow
synthesized between the two distinct-id tasks tA and tB. -/
theorem c8_amended_synthesized_flows_irreflexive_witness :
    (([tA, tB].map Task.task_id).Nodup) ∧
      (fAB ∈ (emitExplicitFlows [] { created := [], out := [] }).out ∨
        fAB.from_task_id ≠ fAB.to_task_id) :=
  ⟨by decide,
   c8_amended_synthesized_flows_irreflexive [] [tA, tB] (by decide) fAB (by decide)⟩

end PDF2BPMN
